import Mathlib

/-
Verification development for the goDocument repository: a file watcher that
re-parses changed Go source files into a documentation index.

The embedding below translates, from the source:
  - src/parser.go          : formatType, formatFuncType, sanitizeDoc,
                             extractFileData, writeJSONToFile, ParseFile,
                             tryParseFile, fileExistsAndReadable, FileData,
                             FunctionDetail, the docMap store
  - src/file_watcher.go    : logEvent (immediate dedup variant)
  - src/unnamed/part_001   : debounceParsing (windowed debounce variant)

Conventions of the embedding:
  - A Go AST type expression (go/ast.Expr) is the inductive `Expr` below,
    one constructor per node shape the code dispatches on, plus three
    representative unrecognized shapes (struct, ellipsis, paren) that fall
    into the default branch of the type switch.
  - A Go function that can panic is embedded returning Option: `none`
    models the panic. The only panic site is the unchecked type assertion
    t.X.(*ast.Ident) in the SelectorExpr case of formatType.
  - File system reads are modelled as a timeline: attempt number i of the
    retry loop observes the FileState at index i (the loop sleeps a fixed
    50 ms between attempts, so attempt i happens 50*i ms after the first).
  - JSON materialization (writeJSONToFile) is modelled as a FileWrite
    record naming the target path and the encoded store entry; os.Create
    truncates and overwrites that path.
-/

/- ===== Canonical type renderer: src/parser.go, formatType lines 145-179,
   formatFuncType lines 182-195 ===== -/

/-- Embedding of go/ast type-expression nodes, one constructor per shape that
src/parser.go formatType dispatches on. `array` covers ast.ArrayType (both
slices and fixed-size arrays; the length expression is never read by the
renderer). `funcT` covers ast.FuncType: formatFuncType only ever reads the
type of each parameter field, so parameters are embedded as their type
expressions, and the result list (never read) is omitted. `structT`,
`ellipsisT` and `parenT` are representative node shapes that fall to the
default branch of the type switch. -/
inductive Expr where
  | ident (name : String)
  | selector (x : Expr) (sel : String)
  | array (len : Option Expr) (elt : Expr)
  | mapT (key : Expr) (value : Expr)
  | star (x : Expr)
  | funcT (params : Option (List Expr))
  | chanT (value : Expr)
  | interfaceT
  | structT
  | ellipsisT (elt : Expr)
  | parenT (x : Expr)

mutual

/-- src/parser.go lines 145-179. `none` models a Go panic: the SelectorExpr
case does `t.X.(*ast.Ident).Name`, an unchecked type assertion that panics
when the selector base is not a plain identifier. The nil-expression guard
at the top of the Go function has no counterpart because the embedded Expr
type has no nil value. The dead re-checks for Ident, MapType and ArrayType
inside the Go default branch are unreachable (the switch already matched
those types) and fall to the sentinel, exactly as the default branch does. -/
def formatType : Expr → Option String
  | .ident name => some name
  | .selector x sel =>
    match x with
    | .ident name => some (name ++ "." ++ sel)
    | _ => none
  | .array _ elt => (formatType elt).map (fun s => "[]" ++ s)
  | .mapT key value => do
    let k ← formatType key
    let v ← formatType value
    some ("map[" ++ k ++ "]" ++ v)
  | .star x => (formatType x).map (fun s => "*" ++ s)
  | .funcT params => (formatFuncType params).map (fun s => "func" ++ s)
  | .chanT value => (formatType value).map (fun s => "chan " ++ s)
  | .interfaceT => some "interface\x7b\x7d"
  | .structT => some "<unknown type>"
  | .ellipsisT _ => some "<unknown type>"
  | .parenT _ => some "<unknown type>"

/-- src/parser.go lines 182-195: renders the parameter list of a function
type. The Go function receives the whole ast.FuncType but reads only its
Params field list, appending formatType of each field type joined by a
comma; when Params is nil it returns the empty string. -/
def formatFuncType : Option (List Expr) → Option String
  | none => some ""
  | some l => (formatTypeList l).map (fun rs => "(" ++ String.intercalate ", " rs ++ ")")

/-- Renders each element of a parameter type list in order, propagating a
panic from any element (the Go loop would panic at the first bad element). -/
def formatTypeList : List Expr → Option (List String)
  | [] => some []
  | t :: ts => do
    let s ← formatType t
    let rest ← formatTypeList ts
    some (s :: rest)

end

/-- The shapes the type switch in formatType recognizes with a dedicated
case: identifier, qualified name, slice and array, map, pointer, function,
channel and interface. Everything else falls to the default branch. -/
def isRecognized : Expr → Bool
  | .ident _ => true
  | .selector _ _ => true
  | .array _ _ => true
  | .mapT _ _ => true
  | .star _ => true
  | .funcT _ => true
  | .chanT _ => true
  | .interfaceT => true
  | .structT => false
  | .ellipsisT _ => false
  | .parenT _ => false

/-- A string is a Go identifier for the purposes of this development when it
is nonempty and made of alphanumeric characters and underscores. Identifier
names produced by the Go parser for type expressions always satisfy this. -/
def isGoIdent (s : String) : Bool :=
  !s.data.isEmpty && s.data.all (fun c => c.isAlphanum || c == '_')

mutual

/-- A syntactically valid type expression, as produced by the Go parser in
a type position: every selector (qualified name) has a plain identifier as
its base, and every identifier is a Go identifier. Array length expressions
are never rendered and are not constrained. -/
def wfType : Expr → Bool
  | .ident name => isGoIdent name
  | .selector x sel =>
    (match x with
     | .ident name => isGoIdent name
     | _ => false) && isGoIdent sel
  | .array _ elt => wfType elt
  | .mapT key value => wfType key && wfType value
  | .star x => wfType x
  | .funcT params =>
    match params with
    | none => true
    | some l => wfTypeList l
  | .chanT value => wfType value
  | .interfaceT => true
  | .structT => true
  | .ellipsisT elt => wfType elt
  | .parenT x => wfType x

/-- Validity of every element of a parameter type list. -/
def wfTypeList : List Expr → Bool
  | [] => true
  | t :: ts => wfType t && wfTypeList ts

end

/- ===== Source extraction: src/parser.go, extractFileData lines 76-117 ===== -/

/-- src/parser.go lines 28-34: the FunctionDetail record. Go nil slices are
embedded as empty lists. -/
structure FunctionDetail where
  name : String
  docs : String
  params : List String
  paramTypes : List String
  returnTypes : List String
  deriving Repr, DecidableEq

/-- src/parser.go lines 21-25: the FileData record stored per file path.
It has exactly the fields package, imports and functions. -/
structure FileData where
  package : String
  imports : List String
  functions : List FunctionDetail
  deriving Repr, DecidableEq

/-- go/ast.Field as it occurs in the parameter and result lists of a
top-level function declaration: the co-declared names and the shared type. -/
structure FieldData where
  names : List String
  type : Expr

/-- go/ast.FuncType of a top-level function declaration: the parameter and
result field lists, either of which may be nil in the AST. -/
structure FuncTypeData where
  params : Option (List FieldData)
  results : Option (List FieldData)

/-- go/ast.FuncDecl: the declaration name, the doc comment (none when the
ast Doc field is nil, otherwise the text produced by Doc.Text, which ends
with a newline), and the function type (nil-able in the AST). -/
structure FuncDeclData where
  name : String
  doc : Option String
  typ : Option FuncTypeData

/-- go/ast.ValueSpec inside a top-level var or const declaration: declared
names, the optional type annotation and the attached doc comment. -/
structure ValueSpecData where
  names : List String
  typ : Option Expr
  doc : Option String

/-- A top-level declaration: a function declaration, or a generic
declaration (var, const, type or import groups) carrying its value specs. -/
inductive Decl where
  | funcDecl (d : FuncDeclData)
  | genDecl (specs : List ValueSpecData)

/-- go/ast.File as consumed by extractFileData: the declared package name,
the import paths (each the Value of a BasicLit with surrounding quotes, or
none when the Path field is nil) and the top-level declarations. -/
structure GoFileData where
  packageName : String
  imports : List (Option String)
  decls : List Decl

/-- src/parser.go line 141: strings.TrimSpace. -/
def trimSpace (s : String) : String :=
  String.mk (((s.data.dropWhile Char.isWhitespace).reverse.dropWhile Char.isWhitespace).reverse)

/-- src/parser.go lines 140-142: sanitizeDoc replaces every newline with a
space (strings.ReplaceAll with the single-character pattern, embedded as a
character map) and trims surrounding whitespace. -/
def sanitizeDoc (doc : String) : String :=
  trimSpace (String.mk (doc.data.map (fun c => if c == '\n' then ' ' else c)))

/-- strings.Trim with the cutset consisting of the double-quote character:
strips every leading and trailing quote (src/parser.go line 83). -/
def trimQuote (s : String) : String :=
  String.mk (((s.data.dropWhile (fun c => c == '"')).reverse.dropWhile (fun c => c == '"')).reverse)

/-- src/parser.go lines 94-101: the parameter loop of extractFileData. For
each parameter field it appends every co-declared name to Params but appends
formatType of the shared type only once to ParamTypes. Propagates a panic
(none) from formatType. -/
def collectParams : List FieldData → Option (List String × List String)
  | [] => some ([], [])
  | field :: rest => do
    let t ← formatType field.type
    let (ps, ts) ← collectParams rest
    some (field.names ++ ps, t :: ts)

/-- src/parser.go lines 104-108: the result loop of extractFileData, one
rendered type per result field. -/
def collectReturnTypes : List FieldData → Option (List String)
  | [] => some []
  | field :: rest => do
    let t ← formatType field.type
    let ts ← collectReturnTypes rest
    some (t :: ts)

/-- src/parser.go lines 88-109: the FuncDecl case of the declaration switch
in extractFileData, building one FunctionDetail. Docs is the sanitized doc
text when the Doc field is non-nil, otherwise the empty string; parameters
and results are collected only when the respective field lists are non-nil. -/
def extractFunctionDetail (d : FuncDeclData) : Option FunctionDetail := do
  let docs :=
    match d.doc with
    | some t => sanitizeDoc t
    | none => ""
  let (params, paramTypes) ←
    match d.typ with
    | some typ =>
      match typ.params with
      | some fields => collectParams fields
      | none => some (([] : List String), ([] : List String))
    | none => some (([] : List String), ([] : List String))
  let returnTypes ←
    match d.typ with
    | some typ =>
      match typ.results with
      | some fields => collectReturnTypes fields
      | none => some ([] : List String)
    | none => some ([] : List String)
  some { name := d.name, docs := docs, params := params,
         paramTypes := paramTypes, returnTypes := returnTypes }

/-- src/parser.go lines 86-110: the declaration loop. The type switch has a
single case for FuncDecl; every other declaration kind, in particular the
GenDecl carrying top-level var and const specs, is skipped entirely. -/
def collectFunctions : List Decl → Option (List FunctionDetail)
  | [] => some []
  | .funcDecl d :: rest => do
    let f ← extractFunctionDetail d
    let fs ← collectFunctions rest
    some (f :: fs)
  | .genDecl _ :: rest => collectFunctions rest

/-- The in-memory document store: src/parser.go docMap, a Go map from file
path to FileData, embedded as an association list with unique keys. -/
abbrev Store := List (String × FileData)

/-- Go map read docMap followed by the ok/value projection. -/
def storeLookup (docMap : Store) (key : String) : Option FileData :=
  (docMap.find? (fun entry => entry.1 == key)).map (fun entry => entry.2)

/-- Go builtin delete on the docMap. -/
def storeErase (docMap : Store) (key : String) : Store :=
  docMap.filter (fun entry => entry.1 != key)

/-- Go map assignment on the docMap: replaces any existing entry wholesale. -/
def storeInsert (docMap : Store) (key : String) (value : FileData) : Store :=
  storeErase docMap key ++ [(key, value)]

/-- The observable effect of src/parser.go writeJSONToFile, lines 120-137:
os.MkdirAll on the parent directory, then os.Create on jsonFilePath (which
truncates any existing file at that path) and the JSON encoding of the
docMap entry for jsonFilePath written into it. The JSON encoding itself is
modelled abstractly as the encoded record. -/
structure FileWrite where
  path : String
  content : Option FileData
  deriving Repr, DecidableEq

/-- Builds the FileWrite performed by writeJSONToFile for a given store. -/
def writeJSONToFile (docMap : Store) (jsonFilePath : String) : FileWrite :=
  { path := jsonFilePath, content := storeLookup docMap jsonFilePath }

/-- src/parser.go lines 75-117: extractFileData builds the FileData for the
parsed file (package name, unquoted import paths of the non-nil import
specs, and the function details), stores it in the docMap under filePath,
and then calls writeJSONToFile with that same filePath as the target.
Returns none when a formatType panic propagates. -/
def extractFileData (filePath : String) (node : GoFileData) (docMap : Store) :
    Option (Store × FileWrite) :=
  match collectFunctions node.decls with
  | none => none
  | some functions =>
    let fileData : FileData :=
      { package := node.packageName
        imports := node.imports.filterMap (fun p => p.map (fun v => trimQuote v))
        functions := functions }
    let docMap2 := storeInsert docMap filePath fileData
    some (docMap2, writeJSONToFile docMap2 filePath)

/- ===== Retry loop: src/parser.go, ParseFile lines 41-48, tryParseFile
   lines 51-66, fileExistsAndReadable lines 69-72 ===== -/

/-- The result of os.Stat: none models a stat error. -/
structure FileInfo where
  isDir : Bool
  size : Nat
  deriving Repr, DecidableEq

/-- What one retry attempt observes: the stat result and, were the parser
to run, the outcome of parser.ParseFile on the current file content. -/
structure FileState where
  stat : Option FileInfo
  parse : Except String GoFileData

/-- src/parser.go lines 69-72: the file exists, is not a directory and has
nonzero size. -/
def fileExistsAndReadable (stat : Option FileInfo) : Bool :=
  match stat with
  | none => false
  | some info => !info.isDir && decide (0 < info.size)

/-- src/parser.go lines 51-66: the body of the retry loop of tryParseFile.
`i` is the attempt index (the loop sleeps 50 ms after each attempt, so
attempt i observes the file state at index i of the timeline), `remaining`
the attempts left, `lastErr` the last parse error seen so far (initially
nil, embedded as none). When the file is readable and parses, the attempt
extracts and returns nil; when it is readable but fails to parse, the error
is recorded; when it is unreadable, lastErr is left unchanged. Exhausting
the attempts returns lastErr unchanged together with the untouched store.
The returned triple is (store after the call, the JSON write performed if
any, the error returned to the caller). -/
def tryParseFileAux (fs : Nat → FileState) (filePath : String) (docMap : Store)
    (i : Nat) : Nat → Option String → Option (Store × Option FileWrite × Option String)
  | 0, lastErr => some (docMap, none, lastErr)
  | remaining + 1, lastErr =>
    if fileExistsAndReadable (fs i).stat then
      match (fs i).parse with
      | .ok node => (extractFileData filePath node docMap).map (fun r => (r.1, some r.2, none))
      | .error e => tryParseFileAux fs filePath docMap (i + 1) remaining (some e)
    else
      tryParseFileAux fs filePath docMap (i + 1) remaining lastErr

/-- src/parser.go tryParseFile: runs the retry loop from attempt 0 with
lastErr initially nil. -/
def tryParseFile (fs : Nat → FileState) (filePath : String) (docMap : Store)
    (retryCount : Nat) : Option (Store × Option FileWrite × Option String) :=
  tryParseFileAux fs filePath docMap 0 retryCount none

/-- src/parser.go lines 41-48: ParseFile first deletes the docMap entry for
filePath ("Reset for fresh parse"), then calls tryParseFile with retry
count 3 and logs "Error parsing file: ..." exactly when the returned error
is non-nil. The third component of the result is the logged message, none
when nothing is logged. -/
def ParseFile (docMap : Store) (fs : Nat → FileState) (filePath : String) :
    Option (Store × Option FileWrite × Option String) :=
  let docMap1 := storeErase docMap filePath
  (tryParseFile fs filePath docMap1 3).map
    (fun r => (r.1, r.2.1, r.2.2.map (fun e => "Error parsing file: " ++ e)))

/-- A timeline for a file that is zero-length until readyTime ms after the
first attempt and fully written (parsing to node) from then on. Attempt i
runs at 50*i ms, the fixed inter-attempt delay of tryParseFile. -/
def writeRaceFs (readyTime : Nat) (node : GoFileData) : Nat → FileState :=
  fun i =>
    if readyTime ≤ 50 * i then
      { stat := some { isDir := false, size := 1 }, parse := Except.ok node }
    else
      { stat := some { isDir := false, size := 0 }, parse := Except.error "file is empty" }

/- ===== Immediate dedup filter: src/file_watcher.go, logEvent lines 70-91 ===== -/

/-- src/file_watcher.go line 75: the log entry, and also the dedup key,
formatted as timestamp, path and operation joined by a comma and a space. -/
def logLine (timestamp : String) (name : String) (op : String) : String :=
  timestamp ++ ", " ++ name ++ ", " ++ op

/-- src/file_watcher.go lines 70-91: if the most recently accepted entry
equals the incoming one, the whole recentLogs memory is cleared and nothing
is logged; otherwise the entry is written to the log file and appended to
recentLogs. Returns the new recentLogs and whether the entry was logged.
The log-file write error branch is I/O and is modelled as always
succeeding. -/
def logEvent (recentLogs : List String) (logEntry : String) : List String × Bool :=
  if recentLogs.getLast? = some logEntry then
    ([], false)
  else
    (recentLogs ++ [logEntry], true)

/-- Feeds a sequence of (timestamp, path, operation) events through
logEvent, returning the final recentLogs and the per-event logged flags. -/
def runLog (recentLogs : List String) :
    List (String × String × String) → List String × List Bool
  | [] => (recentLogs, [])
  | (ts, name, op) :: rest =>
    let r := logEvent recentLogs (logLine ts name op)
    let next := runLog r.1 rest
    (next.1, r.2 :: next.2)

/- ===== Windowed debounce filter: src/unnamed/part_001, debounceParsing
   lines 87-102 ===== -/

/-- A filesystem notification event as seen by the debounce filter: path,
operation and arrival time in ms. The time is carried only to show that
debounceParsing never reads it. -/
structure Event where
  name : String
  op : String
  time : Nat

/-- src/unnamed/part_001 line 89: the debounce key, path and operation
joined by a colon. -/
def logKey (e : Event) : String :=
  e.name ++ ":" ++ e.op

/-- src/unnamed/part_001 lines 87-102: if the key is already present in the
recentLogs set the event is dropped; otherwise the key is recorded and a
deferred ParseFile call is scheduled 100 ms later. No code path ever
removes a key from the set. Returns the new key set and whether an
extraction was scheduled. -/
def debounceParsing (recentLogs : List String) (e : Event) : List String × Bool :=
  if recentLogs.contains (logKey e) then
    (recentLogs, false)
  else
    (recentLogs ++ [logKey e], true)

/-- Feeds a sequence of events through debounceParsing, returning the final
key set and the per-event scheduled flags. -/
def runDebounce (recentLogs : List String) : List Event → List String × List Bool
  | [] => (recentLogs, [])
  | e :: rest =>
    let r := debounceParsing recentLogs e
    let next := runDebounce r.1 rest
    (next.1, r.2 :: next.2)

/- ===== Concrete inputs used by counterexamples and witnesses ===== -/

/-- A stored record for a path that parsed successfully in the past. -/
def demoFileData : FileData :=
  { package := "main", imports := [], functions := [] }

/-- A timeline on which every attempt fails to stat the file. -/
def demoFsFail : Nat → FileState :=
  fun _ => { stat := none, parse := Except.error "stat failed" }

/-- The declaration of the end-to-end example of the spec: a documented
function Add with the two co-declared parameters x and y of type int and
one int result, as the Go parser delivers it (one parameter field with two
names, doc text ending in a newline). -/
def demoAddDecl : FuncDeclData :=
  { name := "Add"
    doc := some "Add adds two ints\n"
    typ := some { params := some [{ names := ["x", "y"], type := Expr.ident "int" }]
                  results := some [{ names := [], type := Expr.ident "int" }] } }

/-- The FunctionDetail the code actually produces for demoAddDecl: a single
shared param type entry for the co-declared group. -/
def demoAddDetail : FunctionDetail :=
  { name := "Add", docs := "Add adds two ints", params := ["x", "y"],
    paramTypes := ["int"], returnTypes := ["int"] }

/-- A parsed file containing one import and the Add declaration. -/
def demoFile : GoFileData :=
  { packageName := "main"
    imports := [some "\"fmt\""]
    decls := [Decl.funcDecl demoAddDecl] }

/-- The FileData extracted from demoFile. -/
def demoFileRecord : FileData :=
  { package := "main", imports := ["fmt"], functions := [demoAddDetail] }

/-- The store and JSON write produced by a successful extraction of
demoFile at path a.go starting from the empty store. -/
def demoExtractVal : Store × FileWrite :=
  ([("a.go", demoFileRecord)], { path := "a.go", content := some demoFileRecord })

/-- Whether a top-level declaration is a function declaration, the only
kind the switch in extractFileData has a case for. -/
def isFuncDecl : Decl → Bool
  | .funcDecl _ => true
  | .genDecl _ => false

/-- A documented top-level variable spec: var x int with a doc comment. -/
def demoVarSpec : ValueSpecData :=
  { names := ["x"], typ := some (Expr.ident "int"), doc := some "x is the counter\n" }

/-- A parsed file containing a documented top-level var declaration
followed by the Add function. -/
def demoFileWithVar : GoFileData :=
  { packageName := "main", imports := [],
    decls := [Decl.genDecl [demoVarSpec], Decl.funcDecl demoAddDecl] }

/-- The same file without the var declaration. -/
def demoFileNoVar : GoFileData :=
  { packageName := "main", imports := [], decls := [Decl.funcDecl demoAddDecl] }

/-- The record extracted from demoFileNoVar (and from demoFileWithVar). -/
def demoNoVarRecord : FileData :=
  { package := "main", imports := [], functions := [demoAddDetail] }

/-- A timeline on which the file stats fine but is zero-length on every
attempt: fileExistsAndReadable is false throughout, so the parser never
runs and no parse error is ever recorded. -/
def demoFsEmpty : Nat → FileState :=
  fun _ => { stat := some { isDir := false, size := 0 },
             parse := Except.error "expected declaration" }

/-- A mixed timeline: the file is zero-length on the first attempt (the
parser never runs there) and readable but syntactically invalid on the
later attempts. -/
def demoFsMixed : Nat → FileState
  | 0 => { stat := some { isDir := false, size := 0 },
           parse := Except.error "file is empty" }
  | _ + 1 => { stat := some { isDir := false, size := 1 },
               parse := Except.error "expected declaration" }

/- ===== Theorems ===== -/

/-- After deleting a key, looking it up yields none. -/
theorem storeLookup_erase_self (m : Store) (k : String) :
    storeLookup (storeErase m k) k = none := by
  induction m with
  | nil => rfl
  | cons hd tl ih =>
    by_cases h : hd.1 = k
    · simpa [storeErase, List.filter_cons, h] using ih
    · simp only [storeErase, List.filter_cons] at ih ⊢
      have hb : (hd.1 != k) = true := by simp [h]
      simp only [hb, if_true]
      simp only [storeLookup, List.find?] at ih ⊢
      have hb2 : (hd.1 == k) = false := by simp [h]
      rw [hb2]
      exact ih

/-- Appending a binding for k behind bindings that all miss k makes the
lookup of k return that binding. -/
theorem storeLookup_append_last (l : Store) (k : String) (v : FileData) :
    (∀ x ∈ l, (x.1 == k) = false) → storeLookup (l ++ [(k, v)]) k = some v := by
  induction l with
  | nil => intro _; simp [storeLookup, List.find?]
  | cons hd tl ih =>
    intro hall
    have h0 := hall hd (by simp)
    simp only [List.cons_append, storeLookup, List.find?, h0]
    exact ih (fun x hx => hall x (by simp [hx]))

/-- Looking up a key right after inserting it yields the inserted value. -/
theorem storeLookup_insert_self (m : Store) (k : String) (v : FileData) :
    storeLookup (storeInsert m k v) k = some v := by
  unfold storeInsert
  refine storeLookup_append_last (storeErase m k) k v ?_
  intro x hx
  have := List.of_mem_filter hx
  simpa using this

/-- When no attempt in the window both reads the file and parses it, the
retry loop leaves the store untouched, performs no write, and returns some
lastErr-derived error (possibly nil). -/
theorem tryParseFileAux_noSuccess (fs : Nat → FileState) (p : String) (m : Store) :
    ∀ (r i : Nat) (le : Option String),
      (∀ j, i ≤ j → j < i + r →
        fileExistsAndReadable (fs j).stat = false ∨ ∃ msg, (fs j).parse = Except.error msg) →
      ∃ er, tryParseFileAux fs p m i r le = some (m, none, er) := by
  intro r
  induction r with
  | zero => intro i le _; exact ⟨le, rfl⟩
  | succ r ih =>
    intro i le h
    rcases h i (le_refl i) (by omega) with hbad | ⟨msg, hmsg⟩
    · have step : tryParseFileAux fs p m i (r + 1) le = tryParseFileAux fs p m (i + 1) r le := by
        simp [tryParseFileAux, hbad]
      rw [step]
      exact ih (i + 1) le (fun j hj1 hj2 => h j (by omega) (by omega))
    · by_cases hread : fileExistsAndReadable (fs i).stat = true
      · have step : tryParseFileAux fs p m i (r + 1) le
            = tryParseFileAux fs p m (i + 1) r (some msg) := by
          simp [tryParseFileAux, hread, hmsg]
        rw [step]
        exact ih (i + 1) (some msg) (fun j hj1 hj2 => h j (by omega) (by omega))
      · have hbad : fileExistsAndReadable (fs i).stat = false := by
          cases hb : fileExistsAndReadable (fs i).stat
          · rfl
          · exact absurd hb hread
        have step : tryParseFileAux fs p m i (r + 1) le = tryParseFileAux fs p m (i + 1) r le := by
          simp [tryParseFileAux, hbad]
        rw [step]
        exact ih (i + 1) le (fun j hj1 hj2 => h j (by omega) (by omega))

/-- Claim C1 (amended): when every one of the three attempts either cannot
read the file or fails to parse it, ParseFile leaves the store equal to the
store with the entry for the path deleted; in particular the entry for the
path is gone afterwards, not the previous record. -/
theorem c1_entry_removed_on_failed_parse (store : Store) (fs : Nat → FileState) (p : String)
    (h : ∀ j, j < 3 →
      fileExistsAndReadable (fs j).stat = false ∨ ∃ msg, (fs j).parse = Except.error msg) :
    ∃ logMsg, ParseFile store fs p = some (storeErase store p, none, logMsg) ∧
      storeLookup (storeErase store p) p = none := by
  obtain ⟨er, her⟩ := tryParseFileAux_noSuccess fs p (storeErase store p) 3 0 none
    (fun j _ hj2 => h j (by omega))
  exact ⟨er.map (fun e => "Error parsing file: " ++ e),
    by simp [ParseFile, tryParseFile, her], storeLookup_erase_self store p⟩

/-- Claim C1, counterexample: the path a.go holds a previously parsed
record; extraction then fails on every attempt (the file cannot even be
stat-ed); afterwards the store entry for a.go is gone, not the old record,
contradicting the claim that the entry after a failed attempt equals the
entry before it. -/
theorem c1_counterexample :
    storeLookup [("a.go", demoFileData)] "a.go" = some demoFileData ∧
      ParseFile [("a.go", demoFileData)] demoFsFail "a.go" = some ([], none, none) ∧
      storeLookup ([] : Store) "a.go" = none :=
  ⟨rfl, rfl, rfl⟩

/-- Claim C1, witness for the amended theorem at a concrete input. -/
theorem c1_witness :
    ∃ logMsg, ParseFile [("a.go", demoFileData)] demoFsFail "a.go" =
        some (storeErase [("a.go", demoFileData)] "a.go", none, logMsg) ∧
      storeLookup (storeErase [("a.go", demoFileData)] "a.go") "a.go" = none :=
  c1_entry_removed_on_failed_parse [("a.go", demoFileData)] demoFsFail "a.go"
    (fun _ _ => Or.inl rfl)

/-- Claim C2: for the co-declared parameters x, y of type int the code
produces params of length two but paramTypes of length one: the shared
type is recorded once per group, not once per parameter name. -/
theorem c2_param_types_once_per_group :
    extractFunctionDetail demoAddDecl = some demoAddDetail ∧
      demoAddDetail.params = ["x", "y"] ∧ demoAddDetail.paramTypes = ["int"] ∧
      demoAddDetail.paramTypes.length ≠ demoAddDetail.params.length :=
  ⟨rfl, rfl, rfl, by decide⟩

/-- Totality of the renderer on valid type expressions, proved jointly for
expressions and parameter lists by strong induction on size. -/
theorem fmt_total_aux : ∀ n : Nat,
    (∀ e : Expr, sizeOf e ≤ n → wfType e = true → (formatType e).isSome = true) ∧
    (∀ l : List Expr, sizeOf l ≤ n → wfTypeList l = true → (formatTypeList l).isSome = true) := by
  intro n
  induction n using Nat.strong_induction_on with
  | _ n ih =>
    constructor
    · intro e hs hw
      cases e with
      | ident name => simp [formatType]
      | selector x sel =>
        cases x
        case ident name => simp [formatType]
        all_goals simp [wfType] at hw
      | array len elt =>
        have hw2 : wfType elt = true := by simpa [wfType] using hw
        have hlt : sizeOf elt < n := by
          have hx := hs
          simp at hx
          omega
        obtain ⟨s, hsx⟩ := Option.isSome_iff_exists.mp ((ih (sizeOf elt) hlt).1 elt (le_refl _) hw2)
        simp [formatType, hsx]
      | mapT key value =>
        have hw2 : wfType key = true ∧ wfType value = true := by
          simpa [wfType, Bool.and_eq_true] using hw
        have hlt1 : sizeOf key < n := by
          have hx := hs
          simp at hx
          omega
        have hlt2 : sizeOf value < n := by
          have hx := hs
          simp at hx
          omega
        obtain ⟨ks, hks⟩ :=
          Option.isSome_iff_exists.mp ((ih (sizeOf key) hlt1).1 key (le_refl _) hw2.1)
        obtain ⟨vs, hvs⟩ :=
          Option.isSome_iff_exists.mp ((ih (sizeOf value) hlt2).1 value (le_refl _) hw2.2)
        simp [formatType, hks, hvs]
      | star x =>
        have hw2 : wfType x = true := by simpa [wfType] using hw
        have hlt : sizeOf x < n := by
          have hx := hs
          simp at hx
          omega
        obtain ⟨s, hsx⟩ := Option.isSome_iff_exists.mp ((ih (sizeOf x) hlt).1 x (le_refl _) hw2)
        simp [formatType, hsx]
      | funcT params =>
        cases params with
        | none => simp [formatType, formatFuncType]
        | some l =>
          have hw2 : wfTypeList l = true := by simpa [wfType] using hw
          have hlt : sizeOf l < n := by
            have hx := hs
            simp at hx
            omega
          obtain ⟨rs, hrs⟩ :=
            Option.isSome_iff_exists.mp ((ih (sizeOf l) hlt).2 l (le_refl _) hw2)
          simp [formatType, formatFuncType, hrs]
      | chanT value =>
        have hw2 : wfType value = true := by simpa [wfType] using hw
        have hlt : sizeOf value < n := by
          have hx := hs
          simp at hx
          omega
        obtain ⟨s, hsx⟩ :=
          Option.isSome_iff_exists.mp ((ih (sizeOf value) hlt).1 value (le_refl _) hw2)
        simp [formatType, hsx]
      | interfaceT => simp [formatType]
      | structT => simp [formatType]
      | ellipsisT elt => simp [formatType]
      | parenT x => simp [formatType]
    · intro l hs hw
      cases l with
      | nil => simp [formatTypeList]
      | cons t ts =>
        have hw2 : wfType t = true ∧ wfTypeList ts = true := by
          simpa [wfTypeList, Bool.and_eq_true] using hw
        have h1 : sizeOf t < n := by
          have hx := hs
          simp at hx
          omega
        have h2 : sizeOf ts < n := by
          have hx := hs
          simp at hx
          omega
        obtain ⟨s, hst⟩ :=
          Option.isSome_iff_exists.mp ((ih (sizeOf t) h1).1 t (le_refl _) hw2.1)
        obtain ⟨rest, hrest⟩ :=
          Option.isSome_iff_exists.mp ((ih (sizeOf ts) h2).2 ts (le_refl _) hw2.2)
        simp [formatTypeList, hst, hrest]

/-- A string that starts with a character other than the angle bracket of
the sentinel cannot equal the sentinel, whatever follows. -/
theorem append_ne_unknown (pre s : String) (hne : pre.data ≠ [])
    (hc : pre.data.head? ≠ some '<') : ¬ (pre ++ s = "<unknown type>") := by
  intro h
  have hd := congrArg String.data h
  rw [String.data_append] at hd
  cases hp : pre.data with
  | nil => exact hne hp
  | cons c cs =>
    rw [hp] at hd
    have hlit : ("<unknown type>" : String).data
        = '<' :: ['u', 'n', 'k', 'n', 'o', 'w', 'n', ' ', 't', 'y', 'p', 'e', '>'] := rfl
    rw [hlit, List.cons_append] at hd
    have hc1 : c = '<' := (List.cons.injEq _ _ _ _).mp hd |>.1
    rw [hp] at hc
    exact hc (by rw [hc1]; rfl)

/-- Claim C3: on every syntactically valid type expression the renderer
does not panic (returns a string), and it returns the <unknown type>
sentinel only for node shapes outside the recognized set (identifier,
qualified name, pointer, slice/array, map, channel, function, interface). -/
theorem c3_render_total_and_sentinel (e : Expr) (h : wfType e = true) :
    (formatType e).isSome = true ∧
      (formatType e = some "<unknown type>" → isRecognized e = false) := by
  refine ⟨(fmt_total_aux (sizeOf e)).1 e (le_refl _) h, ?_⟩
  intro heq
  cases e with
  | ident name =>
    simp [formatType] at heq
    rw [heq] at h
    exact absurd h (by decide)
  | selector x sel =>
    cases x
    case ident q =>
      simp [formatType] at heq
      have hq : isGoIdent q = true := by
        have h2 : (isGoIdent q && isGoIdent sel) = true := by simpa [wfType] using h
        exact (Bool.and_eq_true _ _ |>.mp h2).1
      have hqdata : ¬ q.data.isEmpty = true ∧
          q.data.all (fun c => c.isAlphanum || c == '_') = true := by
        have h3 := hq
        simp only [isGoIdent, Bool.and_eq_true, Bool.not_eq_true'] at h3
        exact ⟨by simp [h3.1], h3.2⟩
      have hne : (q ++ ".").data ≠ [] := by
        rw [String.data_append]
        simp
      have hc : (q ++ ".").data.head? ≠ some '<' := by
        rw [String.data_append]
        cases hqd : q.data with
        | nil => simp [hqd] at hqdata
        | cons c0 cs =>
          have hall := hqdata.2
          rw [hqd] at hall
          have hc0 : (c0.isAlphanum || c0 == '_') = true := by
            simpa [List.all_cons, Bool.and_eq_true] using (Bool.and_eq_true _ _ |>.mp hall).1
          simp only [List.cons_append, List.head?]
          intro hcc
          have : c0 = '<' := by simpa using hcc
          rw [this] at hc0
          exact absurd hc0 (by decide)
      exact absurd heq (append_ne_unknown (q ++ ".") sel hne hc)
    all_goals simp [formatType] at heq
  | array len elt =>
    have hw2 : wfType elt = true := by simpa [wfType] using h
    obtain ⟨s, hsx⟩ :=
      Option.isSome_iff_exists.mp ((fmt_total_aux (sizeOf elt)).1 elt (le_refl _) hw2)
    simp [formatType, hsx] at heq
    exact absurd heq (append_ne_unknown "[]" s (by decide) (by decide))
  | mapT key value =>
    have hw2 : wfType key = true ∧ wfType value = true := by
      simpa [wfType, Bool.and_eq_true] using h
    obtain ⟨ks, hks⟩ :=
      Option.isSome_iff_exists.mp ((fmt_total_aux (sizeOf key)).1 key (le_refl _) hw2.1)
    obtain ⟨vs, hvs⟩ :=
      Option.isSome_iff_exists.mp ((fmt_total_aux (sizeOf value)).1 value (le_refl _) hw2.2)
    simp [formatType, hks, hvs] at heq
    rw [String.append_assoc, String.append_assoc] at heq
    exact absurd heq (append_ne_unknown "map[" (ks ++ ("]" ++ vs)) (by decide) (by decide))
  | star x =>
    have hw2 : wfType x = true := by simpa [wfType] using h
    obtain ⟨s, hsx⟩ :=
      Option.isSome_iff_exists.mp ((fmt_total_aux (sizeOf x)).1 x (le_refl _) hw2)
    simp [formatType, hsx] at heq
    exact absurd heq (append_ne_unknown "*" s (by decide) (by decide))
  | funcT params =>
    cases params with
    | none =>
      simp [formatType, formatFuncType] at heq
    | some l =>
      have hw2 : wfTypeList l = true := by simpa [wfType] using h
      obtain ⟨rs, hrs⟩ :=
        Option.isSome_iff_exists.mp ((fmt_total_aux (sizeOf l)).2 l (le_refl _) hw2)
      simp [formatType, formatFuncType, hrs] at heq
      exact absurd heq (append_ne_unknown "func"
        ("(" ++ String.intercalate ", " rs ++ ")") (by decide) (by decide))
  | chanT value =>
    have hw2 : wfType value = true := by simpa [wfType] using h
    obtain ⟨s, hsx⟩ :=
      Option.isSome_iff_exists.mp ((fmt_total_aux (sizeOf value)).1 value (le_refl _) hw2)
    simp [formatType, hsx] at heq
    exact absurd heq (append_ne_unknown "chan " s (by decide) (by decide))
  | interfaceT =>
    simp [formatType] at heq
  | structT => rfl
  | ellipsisT elt => rfl
  | parenT x => rfl

/-- Claim C3, witness: a concrete valid type expression on which the
renderer succeeds. -/
theorem c3_witness :
    wfType (Expr.star (Expr.selector (Expr.ident "pkg") "T")) = true ∧
      (formatType (Expr.star (Expr.selector (Expr.ident "pkg") "T"))).isSome = true :=
  ⟨by decide, (c3_render_total_and_sentinel _ (by decide)).1⟩

/-- Claim C4, counterexample: a file with a documented top-level var
declaration extracts to exactly the same record, store and JSON write as
the same file without the declaration; the record (package, imports,
functions only) carries no trace of the variable, its type or its doc,
contradicting the claim that the produced record contains the top-level
variable declarations. -/
theorem c4_counterexample :
    extractFileData "a.go" demoFileWithVar [] = extractFileData "a.go" demoFileNoVar [] ∧
      extractFileData "a.go" demoFileNoVar [] =
        some ([("a.go", demoNoVarRecord)], { path := "a.go", content := some demoNoVarRecord }) :=
  ⟨rfl, rfl⟩

/-- Declarations skipped by the switch contribute nothing to the collected
function list. -/
theorem collectFunctions_filter (decls : List Decl) :
    collectFunctions (decls.filter isFuncDecl) = collectFunctions decls := by
  induction decls with
  | nil => rfl
  | cons d rest ih =>
    cases d with
    | funcDecl fd => simp [List.filter_cons, isFuncDecl, collectFunctions, ih]
    | genDecl specs => simp [List.filter_cons, isFuncDecl, collectFunctions, ih]

/-- Claim C4 (amended): the record produced for a successfully parsed file
contains only package, imports and functions; dropping every non-function
top-level declaration (in particular every var and const declaration)
leaves the extraction result unchanged, so variable declarations are not
captured at all. -/
theorem c4_variables_not_captured (p : String) (store : Store) (node : GoFileData) :
    extractFileData p node store =
      extractFileData p
        { packageName := node.packageName, imports := node.imports,
          decls := node.decls.filter isFuncDecl } store := by
  simp [extractFileData, collectFunctions_filter]

/-- On the write-race timeline, as soon as the window of remaining attempts
reaches a point at which the file is ready, the retry loop succeeds and
performs the extraction. -/
theorem writeRace_success (T : Nat) (node : GoFileData) (p : String) (m : Store) :
    ∀ (r i : Nat) (le : Option String), 0 < r → T ≤ 50 * (i + r - 1) →
      tryParseFileAux (writeRaceFs T node) p m i r le =
        (extractFileData p node m).map (fun a => (a.1, some a.2, none)) := by
  intro r
  induction r with
  | zero => intro i le h0 _; exact absurd h0 (by omega)
  | succ r ih =>
    intro i le _ hT
    by_cases hready : T ≤ 50 * i
    · have hr : fileExistsAndReadable (writeRaceFs T node i).stat = true := by
        simp [writeRaceFs, hready, fileExistsAndReadable]
      have hp : (writeRaceFs T node i).parse = Except.ok node := by
        simp [writeRaceFs, hready]
      simp [tryParseFileAux, hr, hp]
    · cases r with
      | zero =>
        have : T ≤ 50 * i := by omega
        exact absurd this hready
      | succ r2 =>
        have hbad : fileExistsAndReadable (writeRaceFs T node i).stat = false := by
          simp [writeRaceFs, hready, fileExistsAndReadable]
        have step : tryParseFileAux (writeRaceFs T node) p m i (r2 + 1 + 1) le =
            tryParseFileAux (writeRaceFs T node) p m (i + 1) (r2 + 1) le := by
          simp [tryParseFileAux, hbad]
        rw [step]
        exact ih (i + 1) le (by omega) (by omega)

/-- Claim C5: the extraction step retries up to 3 attempts separated by the
fixed 50 ms delay and treats a zero-length file as not yet ready, so a file
that is zero-length at first but fully written by readyTime ≤ 100 ms (in
particular within 30 ms) is still successfully parsed and indexed: the
store gains the extracted record, the JSON write happens, nothing is
logged as an error. -/
theorem c5_retry_tolerance (T : Nat) (node : GoFileData) (store : Store) (p : String)
    (hT : T ≤ 100) (r : Store × FileWrite)
    (hx : extractFileData p node (storeErase store p) = some r) :
    ParseFile store (writeRaceFs T node) p = some (r.1, some r.2, none) := by
  have h := writeRace_success T node p (storeErase store p) 3 0 none (by omega) (by omega)
  simp [ParseFile, tryParseFile, h, hx]

/-- Claim C5, witness: the file becomes readable 30 ms in; the second
attempt (at 50 ms) parses it and the Add record lands in the index. -/
theorem c5_witness :
    ParseFile [] (writeRaceFs 30 demoFile) "a.go" =
      some (demoExtractVal.1, some demoExtractVal.2, none) :=
  c5_retry_tolerance 30 demoFile [] "a.go" (by omega) demoExtractVal rfl

/-- When every attempt in a window cannot read the file, the retry loop
walks through the window leaving the store and lastErr untouched. -/
theorem tryParseFileAux_allUnreadable (fs : Nat → FileState) (p : String) (m : Store) :
    ∀ (r i : Nat) (le : Option String),
      (∀ j, i ≤ j → j < i + r → fileExistsAndReadable (fs j).stat = false) →
      tryParseFileAux fs p m i r le = some (m, none, le) := by
  intro r
  induction r with
  | zero => intro i le _; rfl
  | succ r ih =>
    intro i le h
    have hbad := h i (le_refl i) (by omega)
    have step : tryParseFileAux fs p m i (r + 1) le = tryParseFileAux fs p m (i + 1) r le := by
      simp [tryParseFileAux, hbad]
    rw [step]
    exact ih (i + 1) le (fun j hj1 hj2 => h j (by omega) (by omega))

/-- When no attempt in the window parses successfully, attempt k reads the
file and fails to parse it with err, and every later attempt in the window
cannot read the file (so k is the last attempt that reached the parser),
the retry loop returns exactly err. -/
theorem tryParseFileAux_lastReaderError (fs : Nat → FileState) (p : String) (m : Store) :
    ∀ (r i : Nat) (le : Option String) (k : Nat) (err : String),
      i ≤ k → k < i + r →
      fileExistsAndReadable (fs k).stat = true →
      (fs k).parse = Except.error err →
      (∀ j, i ≤ j → j < i + r → fileExistsAndReadable (fs j).stat = true →
        ∃ msg, (fs j).parse = Except.error msg) →
      (∀ j, k < j → j < i + r → fileExistsAndReadable (fs j).stat = false) →
      tryParseFileAux fs p m i r le = some (m, none, some err) := by
  intro r
  induction r with
  | zero => intro i le k err hik hk _ _ _ _; exact absurd hk (by omega)
  | succ r ih =>
    intro i le k err hik hk hkread hkerr hnosucc hlast
    by_cases hri : fileExistsAndReadable (fs i).stat = true
    · obtain ⟨msg0, hmsg0⟩ := hnosucc i (le_refl i) (by omega) hri
      have step : tryParseFileAux fs p m i (r + 1) le
          = tryParseFileAux fs p m (i + 1) r (some msg0) := by
        simp [tryParseFileAux, hri, hmsg0]
      rw [step]
      by_cases hek : i = k
      · have herr : msg0 = err := by
          rw [hek, hkerr] at hmsg0
          exact ((Except.error.injEq _ _).mp hmsg0).symm
        rw [herr]
        exact tryParseFileAux_allUnreadable fs p m r (i + 1) (some err)
          (fun j hj1 hj2 => hlast j (by omega) (by omega))
      · exact ih (i + 1) (some msg0) k err (by omega) (by omega) hkread hkerr
          (fun j hj1 hj2 => hnosucc j (by omega) (by omega))
          (fun j hj1 hj2 => hlast j (by omega) (by omega))
    · have hik2 : i < k := by
        rcases Nat.lt_or_ge i k with hlt | hge
        · exact hlt
        · have heqik : i = k := by omega
          rw [heqik] at hri
          exact absurd hkread hri
      have hbad : fileExistsAndReadable (fs i).stat = false := by
        cases hb : fileExistsAndReadable (fs i).stat
        · rfl
        · exact absurd hb hri
      have step : tryParseFileAux fs p m i (r + 1) le = tryParseFileAux fs p m (i + 1) r le := by
        simp [tryParseFileAux, hbad]
      rw [step]
      exact ih (i + 1) le k err (by omega) (by omega) hkread hkerr
        (fun j hj1 hj2 => hnosucc j (by omega) (by omega))
        (fun j hj1 hj2 => hlast j (by omega) (by omega))

/-- Claim C6 (amended): when extraction exhausts its three attempts without
a successful parse and at least one attempt reached the parser, ParseFile
returns a failure carrying the parse error of the last attempt that
reached the parser, and logs it. The hypotheses say exactly that: no
readable attempt parses successfully, attempt k < 3 reads the file and
fails with err, and the attempts after k (if any) could not read the file,
making k the last attempt that reached the parser. Mixed timelines, such
as a file that is empty on the first attempt and syntactically invalid
afterwards, are covered (see the witness). But see the counterexample:
when no attempt could even read the file, the loop returns its
never-assigned nil error and reports success while having parsed nothing. -/
theorem c6_last_error_returned (store : Store) (fs : Nat → FileState) (p : String)
    (k : Nat) (err : String) (hk : k < 3)
    (hkread : fileExistsAndReadable (fs k).stat = true)
    (hkerr : (fs k).parse = Except.error err)
    (hnosucc : ∀ j, j < 3 → fileExistsAndReadable (fs j).stat = true →
      ∃ msg, (fs j).parse = Except.error msg)
    (hlast : ∀ j, k < j → j < 3 → fileExistsAndReadable (fs j).stat = false) :
    ParseFile store fs p =
      some (storeErase store p, none, some ("Error parsing file: " ++ err)) := by
  have h := tryParseFileAux_lastReaderError fs p (storeErase store p) 3 0 none k err
    (by omega) (by omega) hkread hkerr
    (fun j _ hj2 hr => hnosucc j (by omega) hr)
    (fun j hj1 hj2 => hlast j (by omega) (by omega))
  simp [ParseFile, tryParseFile, h]

/-- Claim C6, counterexample: the file is zero-length on all three attempts
(never readable), so no parse ever runs; extraction exhausts its retries
without a successful parse, yet tryParseFile returns its never-assigned nil
error: ParseFile logs nothing (third component none), i.e. it reports
success, contradicting the claim that a non-success result carrying the
last error is returned. -/
theorem c6_counterexample :
    ParseFile [] demoFsEmpty "b.go" = some ([], none, none) := rfl

/-- Claim C6, witness for the amended theorem on a mixed timeline: the
file is empty on the first attempt (the parser never runs there) and
readable but invalid on the second and third; the parse error of the last
attempt that reached the parser (attempt 2) is the one logged. -/
theorem c6_witness :
    ParseFile [] demoFsMixed "b.go" =
      some ([], none, some ("Error parsing file: " ++ "expected declaration")) :=
  c6_last_error_returned [] demoFsMixed "b.go" 2 "expected declaration"
    (by omega) rfl rfl
    (fun j _ hr => by
      match j with
      | 0 => exact absurd hr (by decide)
      | j2 + 1 => exact ⟨"expected declaration", rfl⟩)
    (fun j hj1 hj2 => absurd hj2 (by omega))

/-- Claim C7, counterexample: two consecutive events with identical path
and operation but timestamps one second apart are both logged; the second
is not suppressed, because the dedup key is the whole log line including
the timestamp, not just (path, operation) as claimed. -/
theorem c7_counterexample :
    runLog [] [("12:00:00", "a.go", "WRITE"), ("12:00:01", "a.go", "WRITE")] =
      (["12:00:00, a.go, WRITE", "12:00:01, a.go, WRITE"], [true, true]) := rfl

/-- Claim C7 (amended): the dedup key is the full log line (timestamp,
path, operation). For three consecutive events that agree on all three
fields, the first is logged, the second is suppressed and resets the
recent-log memory, and the third is again accepted as new. -/
theorem c7_dedup_resets_on_duplicate (ts name op : String) :
    runLog [] [(ts, name, op), (ts, name, op), (ts, name, op)] =
      ([logLine ts name op], [true, false, true]) := by
  simp [runLog, logEvent]

/-- Once the key of an event is in the recentLogs set, every further event
with that key is dropped and the set is unchanged, regardless of the event
times. -/
theorem runDebounce_suppressed (key : String) :
    ∀ (l : List Event) (s : List String), (∀ x ∈ l, logKey x = key) →
      s.contains key = true → runDebounce s l = (s, List.replicate l.length false) := by
  intro l
  induction l with
  | nil => intro s _ _; rfl
  | cons e rest ih =>
    intro s hk hc
    have he : logKey e = key := hk e (by simp)
    have hcontains : s.contains (logKey e) = true := by rw [he]; exact hc
    simp only [runDebounce, debounceParsing, hcontains, if_true, List.length_cons,
      List.replicate_succ]
    rw [ih s (fun x hx => hk x (by simp [hx])) hc]

/-- Claim C8 (amended): any nonempty sequence of events with the same path
and operation, whatever the arrival times, schedules exactly one
extraction, the one triggered by the first event. The quiescence delay
plays no role in suppression because debounceParsing never removes a key
from its set: a later, non-bursty event for the same key is suppressed as
well (see the counterexample). -/
theorem c8_one_extraction_per_key (name op : String) (times : List Nat) (h : times ≠ []) :
    ((runDebounce [] (times.map (fun t => Event.mk name op t))).2.count true) = 1 := by
  cases times with
  | nil => exact absurd rfl h
  | cons t ts =>
    have hstep : debounceParsing [] (Event.mk name op t) = ([name ++ ":" ++ op], true) := by
      simp [debounceParsing, logKey]
    have hrest : runDebounce [name ++ ":" ++ op] (ts.map (fun t => Event.mk name op t)) =
        ([name ++ ":" ++ op], List.replicate (ts.map (fun t => Event.mk name op t)).length false) := by
      refine runDebounce_suppressed (name ++ ":" ++ op) _ _ ?_ ?_
      · intro x hx
        obtain ⟨t2, _, rfl⟩ := List.mem_map.mp hx
        rfl
      · simp
    simp only [List.map_cons, runDebounce, hstep, hrest]
    simp [List.count_cons, List.count_replicate]

/-- Claim C8, counterexample: a Write event for a.go at time 0 schedules an
extraction; a second Write event for the same path arriving 1000 seconds
later, long after the 100 ms quiescence delay elapsed and the extraction
ran, is suppressed (flag false), contradicting the claim that a later
non-bursty event for the same key is never suppressed. -/
theorem c8_counterexample :
    runDebounce [] [Event.mk "a.go" "WRITE" 0, Event.mk "a.go" "WRITE" 1000000] =
      (["a.go:WRITE"], [true, false]) := rfl

/-- Claim C8, witness for the amended theorem: a burst of three rapid
events plus a much later one, all for the same path and operation, produce
exactly one scheduled extraction. -/
theorem c8_witness :
    ((runDebounce [] ([0, 10, 20, 1000000].map
        (fun t => Event.mk "a.go" "WRITE" t))).2.count true) = 1 :=
  c8_one_extraction_per_key "a.go" "WRITE" [0, 10, 20, 1000000] (by simp)

/-- Prefixing func to a parenthesized string is the same as the fused
literal prefix. -/
theorem funcParenHelper (s : String) : "func" ++ ("(" ++ s ++ ")") = "func(" ++ s ++ ")" := by
  rcases s with ⟨d⟩
  rfl

/-- Claim C9: the rendering equations of formatType, stated on the string
results of successful sub-renderings: identifier to its name, qualified
name to qualifier.name, pointer to star-prefix, slice and array to the
bracket prefix, map to the map key-value form, channel to the chan prefix,
function type to func with the comma-joined parameter type renderings, and
the interface literal. -/
theorem c9_render_rules :
    (∀ name : String, formatType (Expr.ident name) = some name) ∧
    (∀ q sel : String, formatType (Expr.selector (Expr.ident q) sel) = some (q ++ "." ++ sel)) ∧
    (∀ (x : Expr) (s : String), formatType x = some s →
      formatType (Expr.star x) = some ("*" ++ s)) ∧
    (∀ (len : Option Expr) (elt : Expr) (s : String), formatType elt = some s →
      formatType (Expr.array len elt) = some ("[]" ++ s)) ∧
    (∀ (key value : Expr) (ks vs : String), formatType key = some ks →
      formatType value = some vs →
      formatType (Expr.mapT key value) = some ("map[" ++ ks ++ "]" ++ vs)) ∧
    (∀ (value : Expr) (s : String), formatType value = some s →
      formatType (Expr.chanT value) = some ("chan " ++ s)) ∧
    (∀ (l : List Expr) (rs : List String), formatTypeList l = some rs →
      formatType (Expr.funcT (some l)) = some ("func(" ++ String.intercalate ", " rs ++ ")")) ∧
    formatType Expr.interfaceT = some "interface\x7b\x7d" := by
  refine ⟨fun name => rfl, fun q sel => rfl, ?_, ?_, ?_, ?_, ?_, rfl⟩
  · intro x s h
    simp [formatType, h]
  · intro len elt s h
    simp [formatType, h]
  · intro key value ks vs hk hv
    simp [formatType, hk, hv]
  · intro value s h
    simp [formatType, h]
  · intro l rs h
    simp only [formatType, formatFuncType, h, Option.map_some']
    rw [funcParenHelper]

/-- Claim C9, witness: the pointer rule applied at a concrete expression. -/
theorem c9_witness : formatType (Expr.star (Expr.ident "int")) = some "*int" :=
  c9_render_rules.2.2.1 (Expr.ident "int") "int" rfl

/-- Claim C10: whenever extraction succeeds for a source path, the JSON
write it performs targets exactly that source path (extractFileData passes
the source path to writeJSONToFile, which creates or truncates that very
file), and the bytes written are the JSON encoding of the freshly stored
record, so the watched source file is overwritten with JSON. -/
theorem c10_json_overwrites_source (p : String) (node : GoFileData) (store : Store)
    (r : Store × FileWrite) (h : extractFileData p node store = some r) :
    r.2.path = p ∧ r.2.content = storeLookup r.1 p ∧ r.2.content.isSome = true := by
  cases hcf : collectFunctions node.decls with
  | none => simp [extractFileData, hcf] at h
  | some functions =>
    simp only [extractFileData, hcf] at h
    injection h with h2
    subst h2
    refine ⟨rfl, rfl, ?_⟩
    show (storeLookup (storeInsert store p _) p).isSome = true
    rw [storeLookup_insert_self]
    rfl

/-- Claim C10, witness: extracting the demo file at path a.go writes JSON
to a.go itself. -/
theorem c10_witness :
    extractFileData "a.go" demoFile [] = some demoExtractVal ∧
      demoExtractVal.2.path = "a.go" :=
  ⟨rfl, (c10_json_overwrites_source "a.go" demoFile [] demoExtractVal rfl).1⟩
